import Mathlib

/-!
Verification of the product-catalog CRUD service described in `spec.md`.

The repository ships only its black-box test suites (`tests/test_routes.py`)
and the browser step library (`features/steps/web_steps.py`); the service
itself (`service/routes.py`, `service/models.py`) is not part of the source
tree.  The entity model, validation layer, query/filter layer and resource
handlers below are therefore modelled from the specification (spec.md §3,
§4.1–§4.4), while the browser step library is embedded directly from
`features/steps/web_steps.py`.
-/

namespace ProductService

/-- Modelled from the spec (§3): the fixed enumeration of category names;
`UNKNOWN` is the "unknown/unclassified" member, itself a valid value.
(`service/models.py` is missing from the source tree.) -/
inductive Category where
  | UNKNOWN
  | CLOTHS
  | FOOD
  | HOUSEWARES
  | AUTOMOTIVE
  | TOOLS
deriving DecidableEq, Repr

/-- Modelled from the spec (§4.1): `category` is serialized "as its
enumeration name". -/
def Category.name : Category → String
  | .UNKNOWN => "UNKNOWN"
  | .CLOTHS => "CLOTHS"
  | .FOOD => "FOOD"
  | .HOUSEWARES => "HOUSEWARES"
  | .AUTOMOTIVE => "AUTOMOTIVE"
  | .TOOLS => "TOOLS"

/-- Modelled from the spec (§4.3): "exact enumeration-name match
(case-sensitive; unknown names yield an empty result set, not an error)". -/
def Category.fromName (s : String) : Option Category :=
  if s = "UNKNOWN" then some .UNKNOWN
  else if s = "CLOTHS" then some .CLOTHS
  else if s = "FOOD" then some .FOOD
  else if s = "HOUSEWARES" then some .HOUSEWARES
  else if s = "AUTOMOTIVE" then some .AUTOMOTIVE
  else if s = "TOOLS" then some .TOOLS
  else none

/-- A JSON scalar value as it appears in a serialized Product record.
Numbers are exact rationals: the spec (§4.1) requires `price` to be emitted
as "a decimal-safe string/number preserving exact monetary value". -/
inductive JVal where
  | jstr (s : String)
  | jnum (q : Rat)
  | jbool (b : Bool)
  | jnull
deriving DecidableEq, Repr

/-- A JSON object: an ordered list of key/value pairs. -/
abbrev Record : Type := List (String × JVal)

/-- Look a key up in a JSON object (first occurrence wins). -/
def getKey (r : Record) (k : String) : Option JVal :=
  match r.find? (fun kv => kv.1 == k) with
  | some kv => some kv.2
  | none => none

/-- Modelled from the spec (§3): the mutable attributes of a Product.
`price` is an exact rational, standing for the decimal monetary value. -/
structure ProductData where
  name : String
  description : String
  price : Rat
  available : Bool
  category : Category
deriving DecidableEq, Repr

/-- Modelled from the spec (§3): a Product is its attribute data plus the
server-assigned integer identifier. -/
structure Product extends ProductData where
  id : Nat
deriving DecidableEq, Repr

/-- Modelled from the spec (§3): a Product is valid when `name` is a
non-empty string and `price` is non-negative. -/
def Product.isValid (p : Product) : Prop := p.name ≠ "" ∧ 0 ≤ p.price

/-- Modelled from the spec (§4.1): `serialize` emits the Product as a JSON
record — `price` as an exact decimal-safe number, `category` as its
enumeration name, `available` as a boolean. -/
def Product.serialize (p : Product) : Record :=
  [("id", JVal.jnum (p.id : Rat)),
   ("name", JVal.jstr p.name),
   ("description", JVal.jstr p.description),
   ("price", JVal.jnum p.price),
   ("available", JVal.jbool p.available),
   ("category", JVal.jstr p.category.name)]

/-- Validation failure message for a missing or empty `name`
(spec §4.1/§4.2: the message carries the stable marker "error"). -/
def badNameMsg : String := "Validation error: name must be a non-empty string"

/-- Validation failure message for a missing or non-string `description`. -/
def badDescriptionMsg : String := "Validation error: missing or invalid description"

/-- Validation failure message for a missing or non-numeric `price`. -/
def badPriceMsg : String := "Validation error: missing or invalid price"

/-- Validation failure message for a missing or non-boolean `available`. -/
def badAvailableMsg : String := "Validation error: available must be a boolean"

/-- Validation failure message for a missing or non-string `category`. -/
def badCategoryKeyMsg : String := "Validation error: missing or invalid category"

/-- Data-validation failure message for a category name outside the
enumeration; per spec §4.1 it names the bad value. -/
def badCategoryMsg (c : String) : String :=
  "Data validation error: unknown category " ++ c

/-- Modelled from the spec (§4.1): `deserialize` accepts a record produced by
`serialize` and reconstructs the Product's data; it fails with a validation
error when a required key is missing, `name` is not a non-empty string,
`available` is not a boolean, or `category` is not an enumeration member. -/
def deserialize (r : Record) : Except String ProductData :=
  match getKey r "name" with
  | some (JVal.jstr n) =>
    if n = "" then Except.error badNameMsg
    else
      match getKey r "description" with
      | some (JVal.jstr ds) =>
        match getKey r "price" with
        | some (JVal.jnum q) =>
          match getKey r "available" with
          | some (JVal.jbool b) =>
            match getKey r "category" with
            | some (JVal.jstr c) =>
              match Category.fromName c with
              | some cat => Except.ok ⟨n, ds, q, b, cat⟩
              | none => Except.error (badCategoryMsg c)
            | _ => Except.error badCategoryKeyMsg
          | _ => Except.error badAvailableMsg
        | _ => Except.error badPriceMsg
      | _ => Except.error badDescriptionMsg
  | _ => Except.error badNameMsg

/-- The body of an HTTP response: a single serialized Product, an array of
serialized Products, an error object `{"message": ...}`, or no body. -/
inductive RespBody where
  | product (r : Record)
  | products (rs : List Record)
  | message (m : String)
  | empty
deriving DecidableEq, Repr

/-- An HTTP response: status code, optional `Location` header, body. -/
structure Response where
  status : Nat
  location : Option String
  body : RespBody
deriving DecidableEq, Repr

/-- Modelled from the spec (§3, §5): the backing store, holding the live
Products in insertion order together with the next server-assigned id. -/
structure Store where
  products : List Product
  nextId : Nat
deriving DecidableEq, Repr

/-- Look up the stored Product with the given id, if any. -/
def getById (st : Store) (i : Nat) : Option Product :=
  st.products.find? (fun p => p.id == i)

/-- The `404 Not Found` message for an unknown id (spec §4.4: it contains
the substring "was not found"). -/
def notFoundMsg (i : Nat) : String :=
  "Product with id " ++ toString i ++ " was not found."

/-- Modelled from the spec (§4.4): `POST /products` — validate, persist,
`201 Created` with a `Location` header pointing at the new resource and the
serialized Product in the body; on validation failure `400 Bad Request`. -/
def createProduct (st : Store) (payload : Record) : Store × Response :=
  match deserialize payload with
  | Except.error m => (st, ⟨400, none, RespBody.message m⟩)
  | Except.ok d =>
    let p : Product := { toProductData := d, id := st.nextId }
    ({ products := st.products ++ [p], nextId := st.nextId + 1 },
     ⟨201, some ("/products/" ++ toString p.id), RespBody.product p.serialize⟩)

/-- Modelled from the spec (§4.4): `GET /products/{id}` — `200 OK` with the
serialized Product if found, else `404 Not Found`. -/
def getProduct (st : Store) (i : Nat) : Response :=
  match getById st i with
  | some p => ⟨200, none, RespBody.product p.serialize⟩
  | none => ⟨404, none, RespBody.message (notFoundMsg i)⟩

/-- Modelled from the spec (§4.4): `PUT /products/{id}` — `404` if the id is
unknown, `400` on validation failure, else overwrite the mutable fields,
preserve `id`, and answer `200 OK` with the serialized updated Product. -/
def updateProduct (st : Store) (i : Nat) (payload : Record) : Store × Response :=
  match getById st i with
  | none => (st, ⟨404, none, RespBody.message (notFoundMsg i)⟩)
  | some _ =>
    match deserialize payload with
    | Except.error m => (st, ⟨400, none, RespBody.message m⟩)
    | Except.ok d =>
      let p' : Product := { toProductData := d, id := i }
      ({ st with products := st.products.map (fun q => if q.id == i then p' else q) },
       ⟨200, none, RespBody.product p'.serialize⟩)

/-- Modelled from the spec (§4.4): `DELETE /products/{id}` — delete if
present; `204 No Content` regardless of prior existence, with no body. -/
def deleteProduct (st : Store) (i : Nat) : Store × Response :=
  ({ st with products := st.products.filter (fun p => !(p.id == i)) },
   ⟨204, none, RespBody.empty⟩)

/-- ASCII-lowercase a string, character by character. -/
def lowerStr (s : String) : String := ⟨s.data.map Char.toLower⟩

/-- Modelled from the spec (§4.3): the `available` filter value is a boolean
"parsed from the literal strings \"true\" (case-insensitive) and any other
value treated as a filter for" unavailability. -/
def parseAvailable (s : String) : Bool := lowerStr s == "true"

/-- The name filter stage: exact string match when the parameter is
given. -/
def applyName (l : List Product) (nameQ : Option String) : List Product :=
  match nameQ with
  | some n => l.filter (fun p => p.name == n)
  | none => l

/-- The category filter stage: exact enumeration-name match when the
parameter is given; an unknown name matches nothing, it never errors. -/
def applyCategory (l : List Product) (categoryQ : Option String) : List Product :=
  match categoryQ with
  | some c =>
    match Category.fromName c with
    | some cat => l.filter (fun p => p.category == cat)
    | none => l.filter (fun _ => false)
  | none => l

/-- The availability filter stage: keep the Products whose availability
equals the parsed parameter when it is given. -/
def applyAvailable (l : List Product) (availableQ : Option String) : List Product :=
  match availableQ with
  | some a => l.filter (fun p => p.available == parseAvailable a)
  | none => l

/-- Modelled from the spec (§4.3): the query/filter layer — apply each
given filter in turn (name: exact match; category: exact enumeration-name
match, unknown names match nothing; available: parsed by
`parseAvailable`). -/
def applyFilters (l : List Product) (nameQ categoryQ availableQ : Option String) :
    List Product :=
  applyAvailable (applyCategory (applyName l nameQ) categoryQ) availableQ

/-- Modelled from the spec (§4.4): `GET /products?{filters}` — `200 OK`
with the JSON array of serialized results from the query/filter layer. -/
def listProducts (st : Store) (nameQ categoryQ availableQ : Option String) :
    Response :=
  ⟨200, none, RespBody.products ((applyFilters st.products nameQ categoryQ availableQ).map
    Product.serialize)⟩

/-- The name filter as a predicate: exact match when given, else true. -/
def nameMatches (nameQ : Option String) (p : Product) : Bool :=
  match nameQ with
  | some n => p.name == n
  | none => true

/-- Membership of a Product's category in an optional parsed category:
unknown (unparsed) categories match nothing. -/
def categoryMatchesCat (oc : Option Category) (p : Product) : Bool :=
  match oc with
  | some cat => p.category == cat
  | none => false

/-- The category filter as a predicate: exact enumeration-name match when
given, else true. -/
def categoryMatches (categoryQ : Option String) (p : Product) : Bool :=
  match categoryQ with
  | some c => categoryMatchesCat (Category.fromName c) p
  | none => true

/-- The availability filter as a predicate. -/
def availableMatches (availableQ : Option String) (p : Product) : Bool :=
  match availableQ with
  | some a => p.available == parseAvailable a
  | none => true

/-- The conjunction of the given list filters, as the spec (§4.3) states it:
a Product is returned iff it satisfies every filter that was supplied. -/
def matchesFilters (nameQ categoryQ availableQ : Option String) (p : Product) :
    Bool :=
  nameMatches nameQ p && (categoryMatches categoryQ p && availableMatches availableQ p)

end ProductService

namespace WebSteps

/-- From `features/steps/web_steps.py`, `get_element`: an element id is
`ID_PREFIX + element_name.lower().replace(' ', '_')` with `ID_PREFIX`
equal to `"product_"` — each character is lowercased and every space then
becomes an underscore. -/
def elementId (name : String) : String :=
  "product_" ++ ⟨(name.data.map Char.toLower).map (fun c => if c = ' ' then '_' else c)⟩

/-- The browser state the step library manipulates: the current values of
the page's input fields (keyed by element id) and `context.clipboard`. -/
structure BrowserContext where
  fields : List (String × String)
  clipboard : String
deriving DecidableEq, Repr

/-- Read the current value of the element with the given id, if the element
is present on the page. -/
def getFieldValue (ctx : BrowserContext) (eid : String) : Option String :=
  match ctx.fields.find? (fun kv => kv.1 == eid) with
  | some kv => some kv.2
  | none => none

/-- Overwrite the value of the element with the given id (the effect of
`element.clear()` followed by `element.send_keys(v)`). -/
def setFieldValue (fs : List (String × String)) (eid v : String) :
    List (String × String) :=
  fs.map (fun kv => if kv.1 == eid then (kv.1, v) else kv)

/-- From `web_steps.py`, step `I copy the "{element_name}" field`: locate
the element (failing if it is absent) and store its value in
`context.clipboard`. -/
def copyStep (ctx : BrowserContext) (name : String) : Option BrowserContext :=
  match getFieldValue ctx (elementId name) with
  | some v => some { ctx with clipboard := v }
  | none => none

/-- From `web_steps.py`, step `I paste the "{element_name}" field`: locate
the element (failing if it is absent), clear it, and type
`context.clipboard` into it. -/
def pasteStep (ctx : BrowserContext) (name : String) : Option BrowserContext :=
  match getFieldValue ctx (elementId name) with
  | some _ =>
    some { ctx with fields := setFieldValue ctx.fields (elementId name) ctx.clipboard }
  | none => none

end WebSteps

namespace ProductService

/-- `hay` contains `needle` as a substring. -/
def strContains (hay needle : String) : Prop :=
  ∃ a b : String, hay = a ++ needle ++ b

theorem Category.fromName_name (c : Category) :
    Category.fromName c.name = some c := by
  cases c <;> rfl

theorem Category.name_of_fromName {s : String} {c : Category}
    (h : Category.fromName s = some c) : c.name = s := by
  unfold Category.fromName at h
  repeat' split at h
  all_goals simp_all [Category.name]
  all_goals (cases h; rfl)

/-- Composing two filters filters by the conjunction of the predicates. -/
theorem filterChain {α : Type} (l : List α) (p q : α → Bool) :
    (l.filter p).filter q = l.filter (fun a => p a && q a) := by
  induction l with
  | nil => rfl
  | cons a t ih =>
    by_cases hp : p a <;> by_cases hq : q a <;>
      simp [List.filter_cons, hp, hq, ih]

/-- If some element of `l` satisfies `pr`, and `f` sends every satisfying
element to the fixed element `c` (itself satisfying `pr`) while fixing the
rest, then the first satisfying element of `l.map f` is `c`. -/
theorem findMapReplace {α : Type} (l : List α) (pr : α → Bool) (f : α → α)
    (c : α) (h1 : ∀ a, pr a = true → f a = c) (h2 : ∀ a, pr a = false → f a = a)
    (h3 : pr c = true) (hl : (l.find? pr).isSome) :
    (l.map f).find? pr = some c := by
  induction l with
  | nil => simp [List.find?] at hl
  | cons a t ih =>
    cases hpa : pr a with
    | true =>
      simp [List.map_cons, List.find?, h1 a hpa, h3]
    | false =>
      rw [List.find?_cons_of_neg _ (by simp [hpa])] at hl
      simp [List.map_cons, List.find?, h2 a hpa, hpa, ih hl]

/-- C2: for every valid Product `P`, `deserialize (serialize P)` succeeds
and returns data equal to `P` in all of name, description, price, available
and category; the exact rational price survives the round trip unchanged. -/
theorem round_trip (p : Product) (h : p.isValid) :
    deserialize p.serialize = Except.ok p.toProductData := by
  obtain ⟨hn, -⟩ := h
  have h1 : getKey p.serialize "name" = some (JVal.jstr p.name) := rfl
  have h2 : getKey p.serialize "description" = some (JVal.jstr p.description) := rfl
  have h3 : getKey p.serialize "price" = some (JVal.jnum p.price) := rfl
  have h4 : getKey p.serialize "available" = some (JVal.jbool p.available) := rfl
  have h5 : getKey p.serialize "category" = some (JVal.jstr p.category.name) := rfl
  simp only [deserialize, h1, h2, h3, h4, h5, Category.fromName_name, if_neg hn]

/-- C2 witness: a concrete valid Product round-trips exactly, price included. -/
theorem round_trip_witness :
    deserialize (Product.serialize ⟨⟨"Hat", "A red hat", (59 : Rat) / 4, true, Category.CLOTHS⟩, 7⟩) =
      Except.ok ⟨"Hat", "A red hat", (59 : Rat) / 4, true, Category.CLOTHS⟩ :=
  round_trip ⟨⟨"Hat", "A red hat", (59 : Rat) / 4, true, Category.CLOTHS⟩, 7⟩
    ⟨by decide, by norm_num⟩

/-- If `hay` splits as `a ++ (mid ++ b)` then it contains `mid`. -/
theorem strContains_of_split (hay a mid b : String) (h : hay = a ++ (mid ++ b)) :
    strContains hay mid :=
  ⟨a, b, by rw [h, String.append_assoc]⟩

/-- C1: POST /products with a well-formed payload answers 201 Created, a
Location header pointing at the new resource, and a body whose name,
description, price, available and category fields equal the input's, with
the id assigned by the server. -/
theorem create_product_ok (st : Store) (payload : Record)
    (n ds c : String) (q : Rat) (b : Bool) (cat : Category)
    (hname : getKey payload "name" = some (JVal.jstr n))
    (hne : n ≠ "")
    (hdesc : getKey payload "description" = some (JVal.jstr ds))
    (hprice : getKey payload "price" = some (JVal.jnum q))
    (havail : getKey payload "available" = some (JVal.jbool b))
    (hcat : getKey payload "category" = some (JVal.jstr c))
    (hmem : Category.fromName c = some cat) :
    (createProduct st payload).2 =
      ⟨201, some ("/products/" ++ toString st.nextId),
        RespBody.product
          [("id", JVal.jnum (st.nextId : Rat)),
           ("name", JVal.jstr n),
           ("description", JVal.jstr ds),
           ("price", JVal.jnum q),
           ("available", JVal.jbool b),
           ("category", JVal.jstr c)]⟩ := by
  have hds : deserialize payload = Except.ok ⟨n, ds, q, b, cat⟩ := by
    simp only [deserialize, hname, hdesc, hprice, havail, hcat, hmem, if_neg hne]
  simp [createProduct, hds, Product.serialize, Category.name_of_fromName hmem]

/-- C1 witness: creating a concrete product in the empty store. -/
theorem create_product_ok_witness :
    (createProduct ⟨[], 1⟩
      [("name", JVal.jstr "Hat"),
       ("description", JVal.jstr "A red hat"),
       ("price", JVal.jnum 5),
       ("available", JVal.jbool true),
       ("category", JVal.jstr "CLOTHS")]).2 =
      ⟨201, some ("/products/" ++ toString (1 : Nat)),
        RespBody.product
          [("id", JVal.jnum ((1 : Nat) : Rat)),
           ("name", JVal.jstr "Hat"),
           ("description", JVal.jstr "A red hat"),
           ("price", JVal.jnum 5),
           ("available", JVal.jbool true),
           ("category", JVal.jstr "CLOTHS")]⟩ :=
  create_product_ok ⟨[], 1⟩ _ "Hat" "A red hat" "CLOTHS" 5 true Category.CLOTHS
    rfl (by decide) rfl rfl rfl rfl rfl

/-- C3: GET and PUT on an id with no stored Product answer 404 Not Found
with a message containing the substring "was not found". -/
theorem not_found_404 (st : Store) (i : Nat) (payload : Record)
    (h : ∀ p ∈ st.products, p.id ≠ i) :
    getProduct st i = ⟨404, none, RespBody.message (notFoundMsg i)⟩
    ∧ (updateProduct st i payload).2 = ⟨404, none, RespBody.message (notFoundMsg i)⟩
    ∧ strContains (notFoundMsg i) "was not found" := by
  have hnone : getById st i = none := by
    rw [getById, List.find?_eq_none]
    intro p hp
    simp [h p hp]
  refine ⟨by simp [getProduct, hnone], by simp [updateProduct, hnone], ?_⟩
  apply strContains_of_split _ ("Product with id " ++ toString i ++ " ") _ "."
  have e : (" " : String) ++ ("was not found" ++ ".") = " was not found." := by decide
  calc notFoundMsg i
      = ("Product with id " ++ toString i) ++ (" " ++ ("was not found" ++ ".")) := by
        rw [e]; rfl
    _ = ("Product with id " ++ toString i ++ " ") ++ ("was not found" ++ ".") :=
        (String.append_assoc _ _ _).symm

/-- C3 witness: id 0 in the empty store. -/
theorem not_found_404_witness :
    getProduct ⟨[], 1⟩ 0 = ⟨404, none, RespBody.message (notFoundMsg 0)⟩
    ∧ (updateProduct ⟨[], 1⟩ 0 []).2 = ⟨404, none, RespBody.message (notFoundMsg 0)⟩
    ∧ strContains (notFoundMsg 0) "was not found" :=
  not_found_404 ⟨[], 1⟩ 0 [] (by simp)

/-- The unknown-category message names the bad value yet still carries the
stable marker "error". -/
theorem badCategoryMsg_marker (c : String) : strContains (badCategoryMsg c) "error" := by
  apply strContains_of_split _ "Data validation " _ (": unknown category " ++ c)
  have e : (("Data validation " ++ "error" : String) ++ ": unknown category ") =
      "Data validation error: unknown category " := by decide
  calc badCategoryMsg c
      = (("Data validation " ++ "error") ++ ": unknown category ") ++ c := by
        rw [e]; rfl
    _ = ("Data validation " ++ "error") ++ (": unknown category " ++ c) :=
        String.append_assoc _ _ _
    _ = "Data validation " ++ ("error" ++ (": unknown category " ++ c)) := by
        rw [String.append_assoc]

/-- Every message produced by a failing `deserialize` carries the stable
marker "error" (spec §4.2). -/
theorem deserialize_error_marker (r : Record) (m : String)
    (h : deserialize r = Except.error m) : strContains m "error" := by
  unfold deserialize at h
  repeat' split at h
  all_goals (cases h)
  all_goals
    first
      | exact strContains_of_split _ "Validation " "error"
          ": name must be a non-empty string" (by decide)
      | exact strContains_of_split _ "Validation " "error"
          ": missing or invalid description" (by decide)
      | exact strContains_of_split _ "Validation " "error"
          ": missing or invalid price" (by decide)
      | exact strContains_of_split _ "Validation " "error"
          ": available must be a boolean" (by decide)
      | exact strContains_of_split _ "Validation " "error"
          ": missing or invalid category" (by decide)
      | exact badCategoryMsg_marker _

/-- C4: POST with an invalid payload, and PUT of an invalid payload on an
existing id, answer 400 Bad Request with a message containing "error". -/
theorem invalid_payload_400 (st : Store) (i : Nat) (payload : Record)
    (p : Product) (m : String)
    (hp : getById st i = some p)
    (hm : deserialize payload = Except.error m) :
    (createProduct st payload).2 = ⟨400, none, RespBody.message m⟩
    ∧ (updateProduct st i payload).2 = ⟨400, none, RespBody.message m⟩
    ∧ strContains m "error" :=
  ⟨by simp [createProduct, hm], by simp [updateProduct, hp, hm],
    deserialize_error_marker payload m hm⟩

/-- C4 witness: the empty JSON object `{}` against a store holding one
product with id 1. -/
theorem invalid_payload_400_witness :
    (createProduct ⟨[⟨⟨"Hat", "A red hat", 5, true, Category.CLOTHS⟩, 1⟩], 2⟩ []).2 =
      ⟨400, none, RespBody.message badNameMsg⟩
    ∧ (updateProduct ⟨[⟨⟨"Hat", "A red hat", 5, true, Category.CLOTHS⟩, 1⟩], 2⟩ 1 []).2 =
      ⟨400, none, RespBody.message badNameMsg⟩
    ∧ strContains badNameMsg "error" :=
  invalid_payload_400 ⟨[⟨⟨"Hat", "A red hat", 5, true, Category.CLOTHS⟩, 1⟩], 2⟩ 1 []
    ⟨⟨"Hat", "A red hat", 5, true, Category.CLOTHS⟩, 1⟩ badNameMsg rfl rfl

/-- The name stage of the filter chain is a filter by `nameMatches`. -/
theorem stage_name (l : List Product) (nameQ : Option String) :
    applyName l nameQ = l.filter (nameMatches nameQ) := by
  cases nameQ with
  | none =>
    rw [show nameMatches none = (fun _ : Product => true) from rfl]
    exact (List.filter_true l).symm
  | some n => rfl

/-- The category stage of the filter chain is a filter by
`categoryMatches`. -/
theorem stage_category (l : List Product) (categoryQ : Option String) :
    applyCategory l categoryQ = l.filter (categoryMatches categoryQ) := by
  cases categoryQ with
  | none =>
    rw [show categoryMatches none = (fun _ : Product => true) from rfl]
    exact (List.filter_true l).symm
  | some c =>
    have e0 : applyCategory l (some c) =
        (match Category.fromName c with
         | some cat => l.filter (fun p => p.category == cat)
         | none => l.filter (fun _ => false)) := rfl
    rw [e0, show categoryMatches (some c) =
      (fun p => categoryMatchesCat (Category.fromName c) p) from rfl]
    cases Category.fromName c with
    | none => rfl
    | some cat => rfl

/-- The availability stage of the filter chain is a filter by
`availableMatches`. -/
theorem stage_available (l : List Product) (availableQ : Option String) :
    applyAvailable l availableQ = l.filter (availableMatches availableQ) := by
  cases availableQ with
  | none =>
    rw [show availableMatches none = (fun _ : Product => true) from rfl]
    exact (List.filter_true l).symm
  | some a => rfl

/-- The sequential filter chain computes the conjunction of the given
filters. -/
theorem applyFilters_eq_filter (l : List Product)
    (nameQ categoryQ availableQ : Option String) :
    applyFilters l nameQ categoryQ availableQ =
      l.filter (matchesFilters nameQ categoryQ availableQ) := by
  unfold applyFilters
  rw [stage_name, stage_category, stage_available, filterChain, filterChain]
  rfl

/-- C5: GET /products answers 200 with exactly the stored Products that
satisfy the conjunction of the supplied filters, kept in insertion order;
with no filters it returns every stored Product. -/
theorem list_products_conjunction (st : Store)
    (nameQ categoryQ availableQ : Option String) :
    listProducts st nameQ categoryQ availableQ =
      ⟨200, none, RespBody.products
        ((st.products.filter (matchesFilters nameQ categoryQ availableQ)).map
          Product.serialize)⟩
    ∧ listProducts st none none none =
      ⟨200, none, RespBody.products (st.products.map Product.serialize)⟩ := by
  constructor
  · rw [listProducts, applyFilters_eq_filter]
  · simp [listProducts, applyFilters, applyName, applyCategory, applyAvailable]

/-- C6: filtering by a category string outside the enumeration answers 200
with an empty array, never an error. -/
theorem invalid_category_empty (st : Store) (nameQ availableQ : Option String)
    (c : String) (h : Category.fromName c = none) :
    listProducts st nameQ (some c) availableQ =
      ⟨200, none, RespBody.products []⟩ := by
  rcases availableQ with _ | a <;>
    simp [listProducts, applyFilters, applyCategory, applyAvailable, h]

/-- C6 witness: the literal the test suite uses, against a nonempty store. -/
theorem invalid_category_empty_witness :
    listProducts ⟨[⟨⟨"Hat", "A red hat", 5, true, Category.CLOTHS⟩, 1⟩], 2⟩
      none (some "INVALID_CATEGORY") none = ⟨200, none, RespBody.products []⟩ :=
  invalid_category_empty ⟨[⟨⟨"Hat", "A red hat", 5, true, Category.CLOTHS⟩, 1⟩], 2⟩
    none none "INVALID_CATEGORY" (by decide)

/-- C7: the `available` filter is parsed case-insensitively — any string
lowering to "true" selects exactly the available Products, and every other
string acts as a filter for unavailable Products instead of being rejected
(the response is 200 either way). -/
theorem available_filter_permissive (st : Store) (s : String) :
    (lowerStr s = "true" →
      listProducts st none none (some s) =
        ⟨200, none, RespBody.products
          ((st.products.filter (fun p => p.available)).map Product.serialize)⟩)
    ∧ (lowerStr s ≠ "true" →
      listProducts st none none (some s) =
        ⟨200, none, RespBody.products
          ((st.products.filter (fun p => !p.available)).map Product.serialize)⟩) := by
  constructor
  · intro h
    have hp : parseAvailable s = true := by simp [parseAvailable, h]
    simp [listProducts, applyFilters, applyName, applyCategory, applyAvailable, hp]
  · intro h
    have hp : parseAvailable s = false := by simp [parseAvailable, h]
    simp [listProducts, applyFilters, applyName, applyCategory, applyAvailable, hp]

/-- C7 witness: "TRUE" selects the available products; "no" is not rejected
and selects the unavailable ones. -/
theorem available_filter_permissive_witness :
    listProducts ⟨[⟨⟨"Hat", "A red hat", 5, true, Category.CLOTHS⟩, 1⟩], 2⟩
      none none (some "TRUE") =
      ⟨200, none, RespBody.products
        (([(⟨⟨"Hat", "A red hat", 5, true, Category.CLOTHS⟩, 1⟩ : Product)].filter
          (fun p => p.available)).map Product.serialize)⟩
    ∧ listProducts ⟨[⟨⟨"Hat", "A red hat", 5, true, Category.CLOTHS⟩, 1⟩], 2⟩
      none none (some "no") =
      ⟨200, none, RespBody.products
        (([(⟨⟨"Hat", "A red hat", 5, true, Category.CLOTHS⟩, 1⟩ : Product)].filter
          (fun p => !p.available)).map Product.serialize)⟩ :=
  ⟨(available_filter_permissive ⟨[⟨⟨"Hat", "A red hat", 5, true, Category.CLOTHS⟩, 1⟩], 2⟩
      "TRUE").1 (by decide),
   (available_filter_permissive ⟨[⟨⟨"Hat", "A red hat", 5, true, Category.CLOTHS⟩, 1⟩], 2⟩
      "no").2 (by decide)⟩

/-- C8: DELETE /products/{id} answers 204 No Content with an empty body
whatever the store holds, and deleting the same id twice answers 204 both
times while the second delete leaves the store unchanged. -/
theorem delete_idempotent (st : Store) (i : Nat) :
    (deleteProduct st i).2 = ⟨204, none, RespBody.empty⟩
    ∧ (deleteProduct (deleteProduct st i).1 i).2 = ⟨204, none, RespBody.empty⟩
    ∧ (deleteProduct (deleteProduct st i).1 i).1 = (deleteProduct st i).1 := by
  refine ⟨rfl, rfl, ?_⟩
  simp [deleteProduct, filterChain]

/-- Replacing the Products with id `i` by `p'` (which has id `i`) leaves
the stored sequence of ids unchanged. -/
theorem map_id_of_update (l : List Product) (i : Nat) (p' : Product)
    (hi : p'.id = i) :
    (l.map (fun q => if q.id == i then p' else q)).map (fun q => q.id) =
      l.map (fun q => q.id) := by
  induction l with
  | nil => rfl
  | cons a t ih =>
    simp only [List.map_cons, ih]
    by_cases h : a.id = i
    · simp [h, hi]
    · simp [h]

/-- C9: a successful PUT preserves the Product's id, overwrites the mutable
fields from the payload, and answers 200 OK with the serialized updated
Product; the sequence of stored ids is untouched. -/
theorem update_product_ok (st : Store) (i : Nat) (payload : Record)
    (p : Product) (d : ProductData)
    (hp : getById st i = some p)
    (hd : deserialize payload = Except.ok d) :
    (updateProduct st i payload).2 =
      ⟨200, none, RespBody.product (Product.serialize ⟨d, i⟩)⟩
    ∧ getById (updateProduct st i payload).1 i = some ⟨d, i⟩
    ∧ (updateProduct st i payload).1.products.map (fun q => q.id) =
        st.products.map (fun q => q.id) := by
  have hsome : (st.products.find? (fun q => q.id == i)).isSome := by
    rw [getById] at hp
    rw [hp]
    rfl
  refine ⟨by simp [updateProduct, hp, hd], ?_, ?_⟩
  · simp only [updateProduct, hp, hd]
    rw [getById]
    exact findMapReplace st.products (fun q => q.id == i)
      (fun q => if q.id == i then (⟨d, i⟩ : Product) else q) ⟨d, i⟩
      (fun a ha => by simp [ha]) (fun a ha => by simp [ha]) (by simp) hsome
  · simp only [updateProduct, hp, hd]
    exact map_id_of_update st.products i ⟨d, i⟩ rfl

/-- C9 witness: updating the product with id 1 with a concrete payload. -/
theorem update_product_ok_witness :
    (updateProduct ⟨[⟨⟨"Hat", "A red hat", 5, true, Category.CLOTHS⟩, 1⟩], 2⟩ 1
      [("name", JVal.jstr "Updated Name"),
       ("description", JVal.jstr "A blue hat"),
       ("price", JVal.jnum 3),
       ("available", JVal.jbool false),
       ("category", JVal.jstr "TOOLS")]).2 =
      ⟨200, none, RespBody.product
        (Product.serialize ⟨⟨"Updated Name", "A blue hat", 3, false, Category.TOOLS⟩, 1⟩)⟩
    ∧ getById (updateProduct ⟨[⟨⟨"Hat", "A red hat", 5, true, Category.CLOTHS⟩, 1⟩], 2⟩ 1
      [("name", JVal.jstr "Updated Name"),
       ("description", JVal.jstr "A blue hat"),
       ("price", JVal.jnum 3),
       ("available", JVal.jbool false),
       ("category", JVal.jstr "TOOLS")]).1 1 =
      some ⟨⟨"Updated Name", "A blue hat", 3, false, Category.TOOLS⟩, 1⟩
    ∧ (updateProduct ⟨[⟨⟨"Hat", "A red hat", 5, true, Category.CLOTHS⟩, 1⟩], 2⟩ 1
      [("name", JVal.jstr "Updated Name"),
       ("description", JVal.jstr "A blue hat"),
       ("price", JVal.jnum 3),
       ("available", JVal.jbool false),
       ("category", JVal.jstr "TOOLS")]).1.products.map (fun q => q.id) =
      ([⟨⟨"Hat", "A red hat", 5, true, Category.CLOTHS⟩, 1⟩] : List Product).map
        (fun q => q.id) :=
  update_product_ok ⟨[⟨⟨"Hat", "A red hat", 5, true, Category.CLOTHS⟩, 1⟩], 2⟩ 1
    [("name", JVal.jstr "Updated Name"),
     ("description", JVal.jstr "A blue hat"),
     ("price", JVal.jnum 3),
     ("available", JVal.jbool false),
     ("category", JVal.jstr "TOOLS")]
    ⟨⟨"Hat", "A red hat", 5, true, Category.CLOTHS⟩, 1⟩
    ⟨"Updated Name", "A blue hat", 3, false, Category.TOOLS⟩ rfl rfl

end ProductService

namespace WebSteps

/-- C10: copying field X and then pasting into field Y leaves Y holding
exactly the value X had at the copy, whatever Y held before. -/
theorem copy_paste_round_trip (ctx : BrowserContext) (x y v : String)
    (hx : getFieldValue ctx (elementId x) = some v)
    (hy : (getFieldValue ctx (elementId y)).isSome) :
    ∃ ctx1 ctx2, copyStep ctx x = some ctx1 ∧ pasteStep ctx1 y = some ctx2 ∧
      getFieldValue ctx2 (elementId y) = some v := by
  have hfind : (ctx.fields.find? (fun kv => kv.1 == elementId y)).isSome := by
    simp only [getFieldValue] at hy
    rcases hmatch : ctx.fields.find? (fun kv => kv.1 == elementId y) with _ | kv
    · rw [hmatch] at hy
      simp at hy
    · rw [hmatch]
      rfl
  obtain ⟨kv, hkv⟩ := Option.isSome_iff_exists.mp hfind
  have h3 : (setFieldValue ctx.fields (elementId y) v).find?
      (fun kv => kv.1 == elementId y) = some (elementId y, v) := by
    unfold setFieldValue
    exact ProductService.findMapReplace ctx.fields (fun kv => kv.1 == elementId y)
      (fun kv => if kv.1 == elementId y then (kv.1, v) else kv) (elementId y, v)
      (fun a ha => by
        have ha' : a.1 = elementId y := by simpa using ha
        simp [ha, ha'])
      (fun a ha => by simp [ha])
      (by simp) hfind
  refine ⟨{ ctx with clipboard := v },
    ⟨setFieldValue ctx.fields (elementId y) v, v⟩, ?_, ?_, ?_⟩
  · simp only [copyStep, hx]
  · have h2 : getFieldValue { ctx with clipboard := v } (elementId y) = some kv.2 := by
      simp only [getFieldValue, hkv]
    simp only [pasteStep, h2]
  · simp only [getFieldValue, h3]

/-- C10 witness: copy the name field into the description field on a
concrete page; the description ends up holding the name's value. -/
theorem copy_paste_round_trip_witness :
    ∃ ctx1 ctx2,
      copyStep ⟨[("product_name", "Hat"), ("product_description", "old")], ""⟩ "Name" =
        some ctx1
      ∧ pasteStep ctx1 "Description" = some ctx2
      ∧ getFieldValue ctx2 (elementId "Description") = some "Hat" :=
  copy_paste_round_trip ⟨[("product_name", "Hat"), ("product_description", "old")], ""⟩
    "Name" "Description" "Hat" (by decide) (by decide)

end WebSteps
